import Mathlib

/-!
# message_transforms: registration tables and relay pipelines

A shallow embedding of `message_transforms_node.hpp` (class `m2m::MessageTransforms`):
the three `register_transform` overloads, the stored collection `subscribers_` and the
three registration tables `transform_map_`, `transform_stamped_map_` and
`transform_odometry_map_`.

The ROS transport (`create_publisher`, `create_subscription`, `publish`) is external to
the class; it is represented by explicit state: the list of publications created so far
and the sequence of transport calls made so far.
-/

namespace m2m

/-! ## Data model -/

/-- The message types on which the header instantiates `register_transform`. -/
inductive MessageT where
  | Pose
  | Twist
  | Wrench
  | PoseStamped
  | TwistStamped
  | WrenchStamped
  | Odometry
  deriving DecidableEq, Repr

/-- The ROS interface name of a message type, e.g. `geometry_msgs::msg::Pose` is
`"geometry_msgs/msg/Pose"`. -/
def MessageT.name : MessageT → String
  | .Pose => "geometry_msgs/msg/Pose"
  | .Twist => "geometry_msgs/msg/Twist"
  | .Wrench => "geometry_msgs/msg/Wrench"
  | .PoseStamped => "geometry_msgs/msg/PoseStamped"
  | .TwistStamped => "geometry_msgs/msg/TwistStamped"
  | .WrenchStamped => "geometry_msgs/msg/WrenchStamped"
  | .Odometry => "nav_msgs/msg/Odometry"

/-- Delivery configuration (`rclcpp::QoS`): queue depth and reliability. The node only
passes it on. -/
structure QoS where
  depth : Nat
  reliable : Bool
  deriving DecidableEq, Repr

/-- A message value as far as this node is concerned: the two frame labels
(`header.frame_id`, `child_frame_id`) and the geometric content. The scalars of the
geometric content are floating point in ROS; they are carried uninterpreted here.
Message types without a header (or without a child frame) never have the corresponding
label read or written. -/
structure Message where
  frame_id : String
  child_frame_id : String
  geometry : List Int
  deriving DecidableEq, Repr

/-- What `create_publisher<MessageT>(topic, qos)` creates. A publication is referred to
by its handle, the position in the list of publications created so far. -/
structure Publisher where
  type : MessageT
  topic : String
  qos : QoS
  deriving DecidableEq, Repr

/-- The three lambdas passed to `create_subscription`, as the data they capture:
`[pub]`, `[pub, frame_id]` and `[pub, frame_id, child_frame_id]`. -/
inductive Callback where
  | plain (pub : Nat)
  | stamped (pub : Nat) (frame_id : String)
  | odometry (pub : Nat) (frame_id : String) (child_frame_id : String)
  deriving DecidableEq, Repr

/-- What `create_subscription<MessageT>(topic, qos, callback)` creates. -/
structure Subscription where
  type : MessageT
  topic : String
  qos : QoS
  callback : Callback
  deriving DecidableEq, Repr

/-- One call made to the transport. -/
inductive Event where
  | create_publisher (pub : Nat) (p : Publisher)
  | create_subscription (s : Subscription)
  | publish (pub : Nat) (m : Message)
  deriving DecidableEq, Repr

/-- State of the node: the member `subscribers_`, together with the transport state the
member functions act on (`publishers`: publications created so far, `calls`: transport
calls made so far, oldest first). -/
structure Node where
  publishers : List Publisher
  subscribers_ : List Subscription
  calls : List Event
  deriving DecidableEq, Repr

/-- A freshly constructed node: `subscribers_` is an empty vector, nothing was created. -/
def Node.empty : Node := ⟨[], [], []⟩

/-! ## Transport primitives -/

/-- The call `create_publisher<T>(topic, qos)`: returns the new publication handle. -/
def create_publisher (T : MessageT) (topic : String) (qos : QoS) (node : Node) : Nat × Node :=
  let pub := node.publishers.length
  let p : Publisher := ⟨T, topic, qos⟩
  (pub, { node with publishers := node.publishers ++ [p],
                    calls := node.calls ++ [Event.create_publisher pub p] })

/-- The call `create_subscription<T>(topic, qos, callback)`: returns the new subscription. -/
def create_subscription (T : MessageT) (topic : String) (qos : QoS) (callback : Callback)
    (node : Node) : Subscription × Node :=
  let s : Subscription := ⟨T, topic, qos, callback⟩
  (s, { node with calls := node.calls ++ [Event.create_subscription s] })

/-- The call `pub->publish(m)`. -/
def publish (pub : Nat) (m : Message) (node : Node) : Node :=
  { node with calls := node.calls ++ [Event.publish pub m] }

/-! ## The three `register_transform` overloads -/

/-- Overload `register_transform<MessageT>(in_topic, out_topic, qos)`. -/
def register_transform (T : MessageT) (in_topic out_topic : String) (qos : QoS)
    (node : Node) : Node :=
  let (pub, node) := create_publisher T out_topic qos node
  let (sub, node) := create_subscription T in_topic qos (Callback.plain pub) node
  { node with subscribers_ := node.subscribers_ ++ [sub] }

/-- Overload `register_transform<MessageT>(in_topic, out_topic, frame_id, qos)`. -/
def register_transform_stamped (T : MessageT) (in_topic out_topic frame_id : String)
    (qos : QoS) (node : Node) : Node :=
  let (pub, node) := create_publisher T out_topic qos node
  let (sub, node) := create_subscription T in_topic qos (Callback.stamped pub frame_id) node
  { node with subscribers_ := node.subscribers_ ++ [sub] }

/-- Overload
`register_transform<MessageT>(in_topic, out_topic, frame_id, child_frame_id, qos)`. -/
def register_transform_odometry (T : MessageT)
    (in_topic out_topic frame_id child_frame_id : String) (qos : QoS) (node : Node) : Node :=
  let (pub, node) := create_publisher T out_topic qos node
  let (sub, node) :=
    create_subscription T in_topic qos (Callback.odometry pub frame_id child_frame_id) node
  { node with subscribers_ := node.subscribers_ ++ [sub] }

/-! ## The registration tables -/

/-- Constructor type of `transform_map_`. -/
abbrev Ctor0 := String → String → QoS → Node → Node

/-- Constructor type of `transform_stamped_map_`. -/
abbrev Ctor1 := String → String → String → QoS → Node → Node

/-- Constructor type of `transform_odometry_map_`. -/
abbrev Ctor2 := String → String → String → String → QoS → Node → Node

/-- Table `transform_map_`: transforms that do not require a frame_id or child_frame_id. -/
def transform_map_ : List (String × Ctor0) :=
  [ ("geometry_msgs/msg/Pose",
      fun in_topic out_topic qos => register_transform MessageT.Pose in_topic out_topic qos),
    ("geometry_msgs/msg/Twist",
      fun in_topic out_topic qos => register_transform MessageT.Twist in_topic out_topic qos),
    ("geometry_msgs/msg/Wrench",
      fun in_topic out_topic qos => register_transform MessageT.Wrench in_topic out_topic qos) ]

/-- Table `transform_stamped_map_`: transforms that require a frame_id. -/
def transform_stamped_map_ : List (String × Ctor1) :=
  [ ("geometry_msgs/msg/PoseStamped",
      fun in_topic out_topic frame_id qos =>
        register_transform_stamped MessageT.PoseStamped in_topic out_topic frame_id qos),
    ("geometry_msgs/msg/TwistStamped",
      fun in_topic out_topic frame_id qos =>
        register_transform_stamped MessageT.TwistStamped in_topic out_topic frame_id qos),
    ("geometry_msgs/msg/WrenchStamped",
      fun in_topic out_topic frame_id qos =>
        register_transform_stamped MessageT.WrenchStamped in_topic out_topic frame_id qos) ]

/-- Table `transform_odometry_map_`: transforms that require a frame_id and
child_frame_id. -/
def transform_odometry_map_ : List (String × Ctor2) :=
  [ ("nav_msgs/msg/Odometry",
      fun in_topic out_topic frame_id child_frame_id qos =>
        register_transform_odometry MessageT.Odometry in_topic out_topic frame_id
          child_frame_id qos) ]

/-- Keys of a table, in the order of its initializer list. -/
def keys {α : Type} (table : List (String × α)) : List String :=
  table.map Prod.fst

/-- Lookup by exact string equality (`unordered_map::find`). -/
def find {α : Type} (table : List (String × α)) (key : String) : Option α :=
  table.lookup key

/-! ## The Engine -/

/-- The three overloads of `transforms::transform_message` called by the subscription
callbacks: `(m)`, `(m, frame_id)` and `(m, frame_id, child_frame_id)`, each for the
message type it is instantiated on. They are declared in `message_transforms/transforms.hpp`,
which is not part of the sources at hand, so the node is embedded over any implementation
of them. Each mutates `m` in place; here it returns the new value of `m`. -/
structure Engine where
  transform_message : MessageT → Message → Message
  transform_message_stamped : MessageT → Message → String → Message
  transform_message_odometry : MessageT → Message → String → String → Message

/-- The fixed geometric operator of the Engine, as it acts on the geometric content of a
message of each type. Its arithmetic is floating point and plays no part in dispatch, so
it is a parameter. -/
structure FrameTransform where
  apply : MessageT → List Int → List Int

/-- Modelled from the spec: the Engine operation `transform_plain(value)`, implemented by
`transforms::transform_message(m)` in `message_transforms/transforms.hpp`, which is not
part of the sources at hand. It applies the frame transform to the geometric fields and
touches nothing else. -/
def transform_plain (ft : FrameTransform) (T : MessageT) (value : Message) : Message :=
  { value with geometry := ft.apply T value.geometry }

/-- Modelled from the spec: the Engine operation `transform_stamped(value, frame_id)`,
implemented by `transforms::transform_message(m, frame_id)` in
`message_transforms/transforms.hpp`, which is not part of the sources at hand. It is
`transform_plain` on the geometric payload, then overwrites the frame-identifier field
with `frame_id` verbatim. -/
def transform_stamped (ft : FrameTransform) (T : MessageT) (value : Message)
    (frame_id : String) : Message :=
  { transform_plain ft T value with frame_id := frame_id }

/-- Modelled from the spec: the Engine operation
`transform_stamped_with_child(value, frame_id, child_frame_id)`, implemented by
`transforms::transform_message(m, frame_id, child_frame_id)` in
`message_transforms/transforms.hpp`, which is not part of the sources at hand. It is as
`transform_stamped`, overwriting both identifier fields independently. -/
def transform_stamped_with_child (ft : FrameTransform) (T : MessageT) (value : Message)
    (frame_id child_frame_id : String) : Message :=
  { transform_plain ft T value with frame_id := frame_id, child_frame_id := child_frame_id }

/-- Modelled from the spec: the Engine as the spec describes it, for a given frame
transform. -/
def spec_engine (ft : FrameTransform) : Engine :=
  ⟨transform_plain ft, transform_stamped ft, transform_stamped_with_child ft⟩

/-! ## Callbacks and delivery -/

/-- Body of the three subscription lambdas, for a subscription on message type `T`:
`MessageT m = *message; transforms::transform_message(m, ...); pub->publish(m);`.
Returns the inbound value `*message` as it is after the call, and the node. -/
def Callback.call (eng : Engine) (T : MessageT) :
    Callback → Message → Node → Message × Node
  | .plain pub, message, node =>
      let m := message
      let m := eng.transform_message T m
      (message, publish pub m node)
  | .stamped pub frame_id, message, node =>
      let m := message
      let m := eng.transform_message_stamped T m frame_id
      (message, publish pub m node)
  | .odometry pub frame_id child_frame_id, message, node =>
      let m := message
      let m := eng.transform_message_odometry T m frame_id child_frame_id
      (message, publish pub m node)

/-- The transport delivers `message` to the `i`-th stored subscription, running its
callback. -/
def deliver (eng : Engine) (i : Nat) (message : Message) (node : Node) : Node :=
  match node.subscribers_[i]? with
  | some sub => (sub.callback.call eng sub.type message node).2
  | none => node

/-- The publication handle a callback captured. -/
def Callback.pub : Callback → Nat
  | .plain pub => pub
  | .stamped pub _ => pub
  | .odometry pub _ _ => pub

/-- The transport calls made by delivering `message` to the `i`-th stored subscription. -/
def published (eng : Engine) (i : Nat) (message : Message) (node : Node) : List Event :=
  (deliver eng i message node).calls.drop node.calls.length

/-! ## Registrations and runs -/

/-- One call of `register_transform`, by overload, with its arguments. -/
inductive Call where
  | plain (T : MessageT) (in_topic out_topic : String) (qos : QoS)
  | stamped (T : MessageT) (in_topic out_topic frame_id : String) (qos : QoS)
  | odometry (T : MessageT) (in_topic out_topic frame_id child_frame_id : String) (qos : QoS)
  deriving DecidableEq, Repr

/-- Performing the call. -/
def Call.run : Call → Node → Node
  | .plain T in_topic out_topic qos => register_transform T in_topic out_topic qos
  | .stamped T in_topic out_topic frame_id qos =>
      register_transform_stamped T in_topic out_topic frame_id qos
  | .odometry T in_topic out_topic frame_id child_frame_id qos =>
      register_transform_odometry T in_topic out_topic frame_id child_frame_id qos

/-- Template argument of the call. -/
def Call.type : Call → MessageT
  | .plain T _ _ _ => T
  | .stamped T _ _ _ _ => T
  | .odometry T _ _ _ _ _ => T

/-- Argument `in_topic` of the call. -/
def Call.in_topic : Call → String
  | .plain _ i _ _ => i
  | .stamped _ i _ _ _ => i
  | .odometry _ i _ _ _ _ => i

/-- Argument `out_topic` of the call. -/
def Call.out_topic : Call → String
  | .plain _ _ o _ => o
  | .stamped _ _ o _ _ => o
  | .odometry _ _ o _ _ _ => o

/-- Argument `qos` of the call. -/
def Call.qos : Call → QoS
  | .plain _ _ _ q => q
  | .stamped _ _ _ _ q => q
  | .odometry _ _ _ _ _ q => q

/-- The `transform_message` overload matching the overload of the call, with the
identifiers given to the call. -/
def Call.transform (eng : Engine) : Call → Message → Message
  | .plain T _ _ _, v => eng.transform_message T v
  | .stamped T _ _ frame_id _, v => eng.transform_message_stamped T v frame_id
  | .odometry T _ _ frame_id child_frame_id _, v =>
      eng.transform_message_odometry T v frame_id child_frame_id

/-- The lambda the call builds around the publication `pub`. -/
def Call.callback (pub : Nat) : Call → Callback
  | .plain _ _ _ _ => Callback.plain pub
  | .stamped _ _ _ frame_id _ => Callback.stamped pub frame_id
  | .odometry _ _ _ frame_id child_frame_id _ => Callback.odometry pub frame_id child_frame_id

/-- The publication the call is expected to create. -/
def Call.publisher (c : Call) : Publisher := ⟨c.type, c.out_topic, c.qos⟩

/-- The subscription the call is expected to create, around publication `pub`. -/
def Call.subscription (pub : Nat) (c : Call) : Subscription :=
  ⟨c.type, c.in_topic, c.qos, c.callback pub⟩

/-- One thing that happens to a node: a registration or the delivery of a message. -/
inductive Step where
  | register (c : Call)
  | deliver (i : Nat) (message : Message)
  deriving DecidableEq, Repr

/-- Effect of one step. -/
def Step.run (eng : Engine) : Step → Node → Node
  | .register c, node => c.run node
  | .deliver i message, node => m2m.deliver eng i message node

/-- Effect of a sequence of steps, first to last. -/
def run (eng : Engine) (steps : List Step) (node : Node) : Node :=
  steps.foldl (fun n s => s.run eng n) node

/-- The handle `pub` was created somewhere in `calls`. -/
def Created (calls : List Event) (pub : Nat) : Prop :=
  ∃ p, Event.create_publisher pub p ∈ calls

/-- Every `publish` in the trace is on a publication created earlier in the trace. -/
def PublishAfterCreate (calls : List Event) : Prop :=
  ∀ j pub m, calls[j]? = some (Event.publish pub m) → Created (calls.take j) pub

/-- The subscriptions created by a sequence of registrations, the first of which creates
the publication with handle `pub`. -/
def subscriptions_from (pub : Nat) : List Call → List Subscription
  | [] => []
  | c :: cs => c.subscription pub :: subscriptions_from (pub + 1) cs

/-- Invariant of a node: every stored callback holds a created publication, every created
publication has its `create_publisher` call in the trace, and the trace publishes only on
publications created earlier. -/
def Node.Sound (node : Node) : Prop :=
  (∀ sub ∈ node.subscribers_, sub.callback.pub < node.publishers.length) ∧
  (∀ pub, pub < node.publishers.length → Created node.calls pub) ∧
  PublishAfterCreate node.calls

/-- Number of `create_publisher` calls in a trace. -/
def count_create_publisher (calls : List Event) : Nat :=
  calls.countP fun e =>
    match e with
    | .create_publisher _ _ => true
    | _ => false

/-- Number of registrations in a sequence of steps. -/
def count_register (steps : List Step) : Nat :=
  steps.countP fun s =>
    match s with
    | .register _ => true
    | _ => false

/-! ## The Dispatcher -/

/-- One configuration entry. -/
structure TransformSpec where
  message_type : String
  input_topic : String
  output_topic : String
  frame_id : Option String
  child_frame_id : Option String
  qos : QoS
  deriving DecidableEq, Repr

/-- Registration errors. -/
inductive DispatchError where
  | UnknownMessageType (message_type : String)
  | MissingFrameMetadata
  deriving DecidableEq, Repr

/-- The shapes, one per registration table. -/
inductive Shape where
  | Plain
  | StampedWithFrame
  | StampedWithFrameAndChild
  deriving DecidableEq, Repr

/-- Whether the table of a shape has the key. -/
def Shape.has_key : Shape → String → Bool
  | .Plain, key => (find transform_map_ key).isSome
  | .StampedWithFrame, key => (find transform_stamped_map_ key).isSome
  | .StampedWithFrameAndChild, key => (find transform_odometry_map_ key).isSome

/-- Modelled from the spec: the shape lookup of `register` (step 1), done in
`on_configure`, whose definition is not part of the sources at hand: the tables are
tried in the given order and the first one holding the key decides the shape. -/
def find_shape (order : List Shape) (message_type : String) : Option Shape :=
  order.find? fun s => s.has_key message_type

/-- The fixed order of the spec: Plain, then StampedWithFrame, then
StampedWithFrameAndChild. -/
def lookup_order : List Shape :=
  [Shape.Plain, Shape.StampedWithFrame, Shape.StampedWithFrameAndChild]

/-- Modelled from the spec: `register(spec)`, done in `on_configure`, whose definition is
not part of the sources at hand. Steps 1 to 5 of the spec: find the shape; fail with
`UnknownMessageType` when no table has the type; fail with `MissingFrameMetadata` when
the shape needs an identifier the spec does not supply; otherwise invoke the constructor
of the table, which creates and records the pair. -/
def register (spec : TransformSpec) (node : Node) : Except DispatchError Unit × Node :=
  match find_shape lookup_order spec.message_type with
  | none => (.error (.UnknownMessageType spec.message_type), node)
  | some .Plain =>
      match find transform_map_ spec.message_type with
      | none => (.error (.UnknownMessageType spec.message_type), node)
      | some ctor => (.ok (), ctor spec.input_topic spec.output_topic spec.qos node)
  | some .StampedWithFrame =>
      match find transform_stamped_map_ spec.message_type with
      | none => (.error (.UnknownMessageType spec.message_type), node)
      | some ctor =>
          match spec.frame_id with
          | none => (.error .MissingFrameMetadata, node)
          | some frame_id =>
              (.ok (), ctor spec.input_topic spec.output_topic frame_id spec.qos node)
  | some .StampedWithFrameAndChild =>
      match find transform_odometry_map_ spec.message_type with
      | none => (.error (.UnknownMessageType spec.message_type), node)
      | some ctor =>
          match spec.frame_id, spec.child_frame_id with
          | some frame_id, some child_frame_id =>
              (.ok (), ctor spec.input_topic spec.output_topic frame_id child_frame_id
                spec.qos node)
          | _, _ => (.error .MissingFrameMetadata, node)

/-- Modelled from the spec: one registration pass over a batch of specs, done in
`on_configure`, whose definition is not part of the sources at hand. Errors are collected
per spec; a failing spec does not stop the pass. -/
def register_all : List TransformSpec → Node → List (Except DispatchError Unit) × Node
  | [], node => ([], node)
  | spec :: rest, node =>
      let r := register spec node
      let rs := register_all rest r.2
      (r.1 :: rs.1, rs.2)

/-! ## Basic facts about registrations and tables -/

theorem Call.run_eq (c : Call) (node : Node) :
    c.run node =
      { publishers := node.publishers ++ [c.publisher],
        subscribers_ := node.subscribers_ ++ [c.subscription node.publishers.length],
        calls := node.calls ++
          [Event.create_publisher node.publishers.length c.publisher,
           Event.create_subscription (c.subscription node.publishers.length)] } := by
  cases c <;>
    simp [Call.run, register_transform, register_transform_stamped,
      register_transform_odometry, create_publisher, create_subscription, Call.publisher,
      Call.subscription, Call.type, Call.in_topic, Call.out_topic, Call.qos, Call.callback]

theorem find_transform_map_ {key : String} {ctor : Ctor0}
    (h : find transform_map_ key = some ctor) :
    ∃ T, T.name = key ∧ ctor = register_transform T := by
  by_cases h1 : key = "geometry_msgs/msg/Pose"
  · subst h1
    exact ⟨MessageT.Pose, rfl, by simpa [find, transform_map_, List.lookup] using h.symm⟩
  by_cases h2 : key = "geometry_msgs/msg/Twist"
  · subst h2
    exact ⟨MessageT.Twist, rfl, by simpa [find, transform_map_, List.lookup] using h.symm⟩
  by_cases h3 : key = "geometry_msgs/msg/Wrench"
  · subst h3
    exact ⟨MessageT.Wrench, rfl, by simpa [find, transform_map_, List.lookup] using h.symm⟩
  have e1 : (key == "geometry_msgs/msg/Pose") = false := by simpa using h1
  have e2 : (key == "geometry_msgs/msg/Twist") = false := by simpa using h2
  have e3 : (key == "geometry_msgs/msg/Wrench") = false := by simpa using h3
  simp [find, transform_map_, List.lookup, e1, e2, e3] at h

theorem find_transform_stamped_map_ {key : String} {ctor : Ctor1}
    (h : find transform_stamped_map_ key = some ctor) :
    ∃ T, T.name = key ∧ ctor = register_transform_stamped T := by
  by_cases h1 : key = "geometry_msgs/msg/PoseStamped"
  · subst h1
    exact ⟨MessageT.PoseStamped, rfl,
      by simpa [find, transform_stamped_map_, List.lookup] using h.symm⟩
  by_cases h2 : key = "geometry_msgs/msg/TwistStamped"
  · subst h2
    exact ⟨MessageT.TwistStamped, rfl,
      by simpa [find, transform_stamped_map_, List.lookup] using h.symm⟩
  by_cases h3 : key = "geometry_msgs/msg/WrenchStamped"
  · subst h3
    exact ⟨MessageT.WrenchStamped, rfl,
      by simpa [find, transform_stamped_map_, List.lookup] using h.symm⟩
  have e1 : (key == "geometry_msgs/msg/PoseStamped") = false := by simpa using h1
  have e2 : (key == "geometry_msgs/msg/TwistStamped") = false := by simpa using h2
  have e3 : (key == "geometry_msgs/msg/WrenchStamped") = false := by simpa using h3
  simp [find, transform_stamped_map_, List.lookup, e1, e2, e3] at h

theorem find_transform_odometry_map_ {key : String} {ctor : Ctor2}
    (h : find transform_odometry_map_ key = some ctor) :
    key = "nav_msgs/msg/Odometry" ∧ ctor = register_transform_odometry MessageT.Odometry := by
  by_cases h1 : key = "nav_msgs/msg/Odometry"
  · subst h1
    exact ⟨rfl, by simpa [find, transform_odometry_map_, List.lookup] using h.symm⟩
  have e1 : (key == "nav_msgs/msg/Odometry") = false := by simpa using h1
  simp [find, transform_odometry_map_, List.lookup, e1] at h

theorem find_isSome_iff {α : Type} (table : List (String × α)) (key : String) :
    (find table key).isSome = true ↔ key ∈ keys table := by
  induction table with
  | nil => simp [find, keys]
  | cons e rest ih =>
    obtain ⟨k, a⟩ := e
    by_cases hk : key = k
    · subst hk
      simp [find, keys, List.lookup]
    · have e1 : (key == k) = false := by simpa using hk
      simp only [find, keys, List.lookup, e1, List.map_cons, List.mem_cons, hk, false_or]
      exact ih

theorem find_eq_none_iff {α : Type} (table : List (String × α)) (key : String) :
    find table key = none ↔ key ∉ keys table := by
  rw [← find_isSome_iff]
  cases find table key <;> simp

theorem has_key_iff (s : Shape) (key : String) :
    s.has_key key = true ↔
      key ∈ (match s with
        | .Plain => keys transform_map_
        | .StampedWithFrame => keys transform_stamped_map_
        | .StampedWithFrameAndChild => keys transform_odometry_map_) := by
  cases s <;> simp only [Shape.has_key, find_isSome_iff]

theorem keys_disjoint :
    List.Disjoint (keys transform_map_) (keys transform_stamped_map_) ∧
    List.Disjoint (keys transform_map_) (keys transform_odometry_map_) ∧
    List.Disjoint (keys transform_stamped_map_) (keys transform_odometry_map_) := by
  have h01 : ∀ k ∈ keys transform_map_, k ∉ keys transform_stamped_map_ := by decide
  have h02 : ∀ k ∈ keys transform_map_, k ∉ keys transform_odometry_map_ := by decide
  have h12 : ∀ k ∈ keys transform_stamped_map_, k ∉ keys transform_odometry_map_ := by decide
  exact ⟨fun k hk hk1 => h01 k hk hk1, fun k hk hk1 => h02 k hk hk1,
    fun k hk hk1 => h12 k hk hk1⟩

theorem has_key_unique {s t : Shape} {key : String}
    (hs : s.has_key key = true) (ht : t.has_key key = true) : s = t := by
  rw [has_key_iff] at hs ht
  obtain ⟨h01, h02, h12⟩ := keys_disjoint
  cases s <;> cases t <;> first
    | rfl
    | exact (h01 hs ht).elim
    | exact (h01 ht hs).elim
    | exact (h02 hs ht).elim
    | exact (h02 ht hs).elim
    | exact (h12 hs ht).elim
    | exact (h12 ht hs).elim

theorem find_shape_of_all (order : List Shape) (hall : ∀ s : Shape, s ∈ order)
    (name : String) (s : Shape) :
    find_shape order name = some s ↔ s.has_key name = true := by
  constructor
  · intro h
    exact by simpa using List.find?_some h
  · intro h
    cases hf : find_shape order name with
    | none =>
      have := (List.find?_eq_none.1 hf) s (hall s)
      simp [h] at this
    | some t =>
      have ht : t.has_key name = true := by simpa using List.find?_some hf
      rw [has_key_unique ht h]

theorem find_shape_eq_of_all (order : List Shape) (hall : ∀ s : Shape, s ∈ order)
    (name : String) : find_shape order name = find_shape lookup_order name := by
  have hall0 : ∀ s : Shape, s ∈ lookup_order := by intro s; cases s <;> decide
  cases h : find_shape lookup_order name with
  | none =>
    cases h1 : find_shape order name with
    | none => rfl
    | some t =>
      rw [find_shape_of_all order hall, ← find_shape_of_all lookup_order hall0, h] at h1
      cases h1
  | some t =>
    rw [find_shape_of_all lookup_order hall0] at h
    exact (find_shape_of_all order hall name t).2 h

/-! ## Facts about deliveries and runs -/

theorem Callback.call_eq (eng : Engine) (T : MessageT) (cb : Callback) (v : Message)
    (node : Node) : ∃ m, cb.call eng T v node = (v, publish cb.pub m node) := by
  cases cb <;> exact ⟨_, rfl⟩

theorem Call.callback_call (eng : Engine) (c : Call) (pub : Nat) (v : Message)
    (node : Node) :
    (c.callback pub).call eng c.type v node = (v, publish pub (c.transform eng v) node) := by
  cases c <;> rfl

theorem deliver_cases (eng : Engine) (i : Nat) (v : Message) (node : Node) :
    deliver eng i v node = node ∨
      ∃ sub m, sub ∈ node.subscribers_ ∧ deliver eng i v node = publish sub.callback.pub m node := by
  unfold deliver
  cases h : node.subscribers_[i]? with
  | none => exact Or.inl rfl
  | some sub =>
    obtain ⟨m, hm⟩ := Callback.call_eq eng sub.type sub.callback v node
    exact Or.inr ⟨sub, m, List.getElem?_mem h, by simp [hm]⟩

theorem deliver_publishers (eng : Engine) (i : Nat) (v : Message) (node : Node) :
    (deliver eng i v node).publishers = node.publishers := by
  rcases deliver_cases eng i v node with h | ⟨sub, m, _, h⟩
  · rw [h]
  · rw [h]; rfl

theorem deliver_subscribers_ (eng : Engine) (i : Nat) (v : Message) (node : Node) :
    (deliver eng i v node).subscribers_ = node.subscribers_ := by
  rcases deliver_cases eng i v node with h | ⟨sub, m, _, h⟩
  · rw [h]
  · rw [h]; rfl

theorem count_create_publisher_append (xs ys : List Event) :
    count_create_publisher (xs ++ ys) = count_create_publisher xs + count_create_publisher ys := by
  simp [count_create_publisher, List.countP_append]

theorem deliver_count (eng : Engine) (i : Nat) (v : Message) (node : Node) :
    count_create_publisher (deliver eng i v node).calls = count_create_publisher node.calls := by
  rcases deliver_cases eng i v node with h | ⟨sub, m, _, h⟩
  · rw [h]
  · rw [h]
    simp [publish, count_create_publisher_append, count_create_publisher]

theorem run_cons (eng : Engine) (s : Step) (steps : List Step) (node : Node) :
    run eng (s :: steps) node = run eng steps (s.run eng node) := rfl

theorem run_append (eng : Engine) (xs ys : List Step) (node : Node) :
    run eng (xs ++ ys) node = run eng ys (run eng xs node) := by
  simp [run, List.foldl_append]

theorem step_grows (eng : Engine) (s : Step) (node : Node) :
    ∃ ps ss es, (s.run eng node).publishers = node.publishers ++ ps ∧
      (s.run eng node).subscribers_ = node.subscribers_ ++ ss ∧
      (s.run eng node).calls = node.calls ++ es := by
  cases s with
  | register c =>
    refine ⟨[c.publisher], [c.subscription node.publishers.length],
      [Event.create_publisher node.publishers.length c.publisher,
        Event.create_subscription (c.subscription node.publishers.length)], ?_, ?_, ?_⟩ <;>
      simp only [Step.run, Call.run_eq]
  | deliver i v =>
    rcases deliver_cases eng i v node with h | ⟨sub, m, _, h⟩
    · exact ⟨[], [], [], by simp [Step.run, h], by simp [Step.run, h], by simp [Step.run, h]⟩
    · exact ⟨[], [], [Event.publish sub.callback.pub m], by simp [Step.run, h, publish],
        by simp [Step.run, h, publish], by simp [Step.run, h, publish]⟩

theorem run_grows (eng : Engine) (steps : List Step) (node : Node) :
    ∃ ps ss es, (run eng steps node).publishers = node.publishers ++ ps ∧
      (run eng steps node).subscribers_ = node.subscribers_ ++ ss ∧
      (run eng steps node).calls = node.calls ++ es := by
  induction steps generalizing node with
  | nil => exact ⟨[], [], [], by simp [run], by simp [run], by simp [run]⟩
  | cons s steps ih =>
    obtain ⟨ps, ss, es, h1, h2, h3⟩ := step_grows eng s node
    obtain ⟨ps1, ss1, es1, k1, k2, k3⟩ := ih (s.run eng node)
    refine ⟨ps ++ ps1, ss ++ ss1, es ++ es1, ?_, ?_, ?_⟩
    · rw [run_cons, k1, h1, List.append_assoc]
    · rw [run_cons, k2, h2, List.append_assoc]
    · rw [run_cons, k3, h3, List.append_assoc]

theorem getElem?_append_cons_length {α : Type} (xs : List α) (a : α) (ys : List α) :
    (xs ++ a :: ys)[xs.length]? = some a := by
  rw [List.getElem?_append_right (Nat.le_refl _)]
  simp

theorem run_registered_subscription (eng : Engine) (c : Call) (node : Node)
    (steps : List Step) :
    (run eng steps (c.run node)).subscribers_[node.subscribers_.length]? =
      some (c.subscription node.publishers.length) := by
  obtain ⟨ps, ss, es, _, h2, _⟩ := run_grows eng steps (c.run node)
  rw [h2, Call.run_eq]
  simp only [List.append_assoc, List.singleton_append]
  exact getElem?_append_cons_length _ _ _

theorem run_registered_publisher (eng : Engine) (c : Call) (node : Node)
    (steps : List Step) :
    (run eng steps (c.run node)).publishers[node.publishers.length]? = some c.publisher := by
  obtain ⟨ps, ss, es, h1, _, _⟩ := run_grows eng steps (c.run node)
  rw [h1, Call.run_eq]
  simp only [List.append_assoc, List.singleton_append]
  exact getElem?_append_cons_length _ _ _

theorem deliver_registered (eng : Engine) (c : Call) (node : Node)
    (steps : List Step) (v : Message) :
    deliver eng node.subscribers_.length v (run eng steps (c.run node)) =
      publish node.publishers.length (c.transform eng v) (run eng steps (c.run node)) := by
  unfold deliver
  rw [run_registered_subscription]
  simp [Call.subscription, Call.callback_call]

/-! ## Ordering of transport calls -/

theorem Created.append_left {calls : List Event} {pub : Nat} (h : Created calls pub)
    (more : List Event) : Created (calls ++ more) pub := by
  obtain ⟨p, hp⟩ := h
  exact ⟨p, List.mem_append_left _ hp⟩

theorem PublishAfterCreate.append_single {calls : List Event} (h : PublishAfterCreate calls)
    (e : Event) (he : ∀ pub m, e = Event.publish pub m → Created calls pub) :
    PublishAfterCreate (calls ++ [e]) := by
  intro j pub m hj
  by_cases hlt : j < calls.length
  · rw [List.getElem?_append_left hlt] at hj
    rw [List.take_append_of_le_length (Nat.le_of_lt hlt)]
    exact h j pub m hj
  · have hle : calls.length ≤ j := Nat.le_of_not_lt hlt
    rw [List.getElem?_append_right hle] at hj
    have hj0 : j - calls.length = 0 := by
      by_contra hne
      obtain ⟨k, hk⟩ := Nat.exists_eq_succ_of_ne_zero hne
      rw [hk] at hj
      simp at hj
    rw [hj0] at hj
    have hje : j = calls.length := by omega
    have hee : e = Event.publish pub m := by simpa using hj
    rw [hje, List.take_left]
    exact he pub m hee

theorem Node.empty_sound : Node.empty.Sound := by
  refine ⟨?_, ?_, ?_⟩
  · intro sub h
    simp [Node.empty] at h
  · intro pub h
    simp [Node.empty] at h
  · intro j pub m h
    simp [Node.empty] at h

theorem Call.callback_pub (c : Call) (pub : Nat) : (c.callback pub).pub = pub := by
  cases c <;> rfl

theorem register_sound (c : Call) {node : Node} (h : node.Sound) :
    (c.run node).Sound := by
  obtain ⟨h1, h2, h3⟩ := h
  rw [Call.run_eq]
  refine ⟨?_, ?_, ?_⟩
  · intro sub hsub
    simp only [List.mem_append, List.mem_singleton, List.length_append, List.length_singleton]
      at hsub ⊢
    rcases hsub with hsub | hsub
    · exact Nat.lt_succ_of_lt (h1 sub hsub)
    · rw [hsub]
      simp [Call.subscription, Call.callback_pub]
  · intro pub hpub
    simp only [List.length_append, List.length_singleton] at hpub
    by_cases hlt : pub < node.publishers.length
    · exact (h2 pub hlt).append_left _
    · have hpe : pub = node.publishers.length := by omega
      exact ⟨c.publisher, by simp [hpe]⟩
  · have e :
        node.calls ++
            [Event.create_publisher node.publishers.length c.publisher,
              Event.create_subscription (c.subscription node.publishers.length)] =
          (node.calls ++ [Event.create_publisher node.publishers.length c.publisher]) ++
            [Event.create_subscription (c.subscription node.publishers.length)] := by
      simp
    show PublishAfterCreate
      (node.calls ++
        [Event.create_publisher node.publishers.length c.publisher,
          Event.create_subscription (c.subscription node.publishers.length)])
    rw [e]
    apply PublishAfterCreate.append_single
    · apply PublishAfterCreate.append_single h3
      intro pub m hm
      cases hm
    · intro pub m hm
      cases hm

theorem deliver_sound (eng : Engine) (i : Nat) (v : Message) {node : Node}
    (h : node.Sound) : (deliver eng i v node).Sound := by
  rcases deliver_cases eng i v node with hd | ⟨sub, m, hsub, hd⟩
  · rw [hd]; exact h
  · rw [hd]
    obtain ⟨h1, h2, h3⟩ := h
    refine ⟨h1, ?_, ?_⟩
    · intro pub hpub
      exact (h2 pub hpub).append_left _
    · apply PublishAfterCreate.append_single h3
      intro pub m1 hm
      have hp : sub.callback.pub = pub := by
        injection hm
      rw [← hp]
      exact h2 _ (h1 sub hsub)

theorem run_sound (eng : Engine) (steps : List Step) {node : Node} (h : node.Sound) :
    (run eng steps node).Sound := by
  induction steps generalizing node with
  | nil => exact h
  | cons s steps ih =>
    rw [run_cons]
    apply ih
    cases s with
    | register c => exact register_sound c h
    | deliver i v => exact deliver_sound eng i v h

theorem run_count (eng : Engine) (steps : List Step) (node : Node) :
    count_create_publisher (run eng steps node).calls =
      count_create_publisher node.calls + count_register steps := by
  induction steps generalizing node with
  | nil => simp [run, count_register]
  | cons s steps ih =>
    rw [run_cons, ih]
    cases s with
    | register c =>
      simp only [Step.run, Call.run_eq, count_create_publisher_append]
      simp [count_create_publisher, count_register, List.countP_cons]
      omega
    | deliver i v =>
      simp only [Step.run, deliver_count]
      simp [count_register, List.countP_cons]

/-! ## The registration tables (C1, C10) -/

/-- C1. The three registration tables hold exactly the enumerated mapping: the keys of
`transform_map_` are the names of Pose, Twist and Wrench, those of
`transform_stamped_map_` the names of PoseStamped, TwistStamped and WrenchStamped, the only
key of `transform_odometry_map_` is the name of Odometry, and every key is bound to
`register_transform` instantiated on the message type of that name, with the overload of
the table's arity. -/
theorem registration_tables_exact :
    keys transform_map_ =
      ["geometry_msgs/msg/Pose", "geometry_msgs/msg/Twist", "geometry_msgs/msg/Wrench"] ∧
    keys transform_stamped_map_ =
      ["geometry_msgs/msg/PoseStamped", "geometry_msgs/msg/TwistStamped",
        "geometry_msgs/msg/WrenchStamped"] ∧
    keys transform_odometry_map_ = ["nav_msgs/msg/Odometry"] ∧
    transform_map_ =
      [(MessageT.Pose.name, register_transform MessageT.Pose),
       (MessageT.Twist.name, register_transform MessageT.Twist),
       (MessageT.Wrench.name, register_transform MessageT.Wrench)] ∧
    transform_stamped_map_ =
      [(MessageT.PoseStamped.name, register_transform_stamped MessageT.PoseStamped),
       (MessageT.TwistStamped.name, register_transform_stamped MessageT.TwistStamped),
       (MessageT.WrenchStamped.name, register_transform_stamped MessageT.WrenchStamped)] ∧
    transform_odometry_map_ =
      [(MessageT.Odometry.name, register_transform_odometry MessageT.Odometry)] ∧
    MessageT.Pose.name = "geometry_msgs/msg/Pose" ∧
    MessageT.Twist.name = "geometry_msgs/msg/Twist" ∧
    MessageT.Wrench.name = "geometry_msgs/msg/Wrench" ∧
    MessageT.PoseStamped.name = "geometry_msgs/msg/PoseStamped" ∧
    MessageT.TwistStamped.name = "geometry_msgs/msg/TwistStamped" ∧
    MessageT.WrenchStamped.name = "geometry_msgs/msg/WrenchStamped" ∧
    MessageT.Odometry.name = "nav_msgs/msg/Odometry" :=
  ⟨rfl, rfl, rfl, rfl, rfl, rfl, rfl, rfl, rfl, rfl, rfl, rfl, rfl⟩

/-- C10. Type names are unique across the three registration tables: no table has a
duplicate key, the key sets are pairwise disjoint, and for every type name the shape found
by trying the tables in any order of the three is the shape found by trying Plain, then
StampedWithFrame, then StampedWithFrameAndChild. -/
theorem type_names_unique_across_tables :
    (keys transform_map_).Nodup ∧
    (keys transform_stamped_map_).Nodup ∧
    (keys transform_odometry_map_).Nodup ∧
    List.Disjoint (keys transform_map_) (keys transform_stamped_map_) ∧
    List.Disjoint (keys transform_map_) (keys transform_odometry_map_) ∧
    List.Disjoint (keys transform_stamped_map_) (keys transform_odometry_map_) ∧
    ∀ order : List Shape, order.Perm lookup_order →
      ∀ name : String, find_shape order name = find_shape lookup_order name := by
  refine ⟨by decide, by decide, by decide, keys_disjoint.1, keys_disjoint.2.1,
    keys_disjoint.2.2, ?_⟩
  intro order hperm name
  apply find_shape_eq_of_all
  intro s
  rw [hperm.mem_iff]
  cases s <;> decide

/-- Witness for C10: trying the odometry table first, then Plain, then StampedWithFrame,
finds the same shape for the Odometry name as the fixed order does. -/
theorem type_names_unique_across_tables_witness :
    [Shape.StampedWithFrameAndChild, Shape.Plain, Shape.StampedWithFrame].Perm lookup_order ∧
    find_shape [Shape.StampedWithFrameAndChild, Shape.Plain, Shape.StampedWithFrame]
        "nav_msgs/msg/Odometry" =
      find_shape lookup_order "nav_msgs/msg/Odometry" :=
  ⟨by decide,
    type_names_unique_across_tables.2.2.2.2.2.2
      [Shape.StampedWithFrameAndChild, Shape.Plain, Shape.StampedWithFrame] (by decide)
      "nav_msgs/msg/Odometry"⟩

theorem published_congr (eng : Engine) (i : Nat) (v : Message) {node other : Node}
    (h : other.subscribers_[i]? = node.subscribers_[i]?) :
    published eng i v other = published eng i v node := by
  unfold published deliver
  rw [h]
  cases node.subscribers_[i]? with
  | none => simp
  | some sub =>
    obtain ⟨T, topic, qos, cb⟩ := sub
    cases cb <;> simp [Callback.call, publish]

theorem subscriptions_from_getElem? (pub : Nat) (cs : List Call) (i : Nat) :
    (subscriptions_from pub cs)[i]? = (cs[i]?).map (Call.subscription (pub + i)) := by
  induction cs generalizing pub i with
  | nil => simp [subscriptions_from]
  | cons c cs ih =>
    cases i with
    | zero => simp [subscriptions_from]
    | succ i =>
      simp only [subscriptions_from, List.getElem?_cons_succ, ih]
      rw [Nat.add_assoc, Nat.add_comm 1 i]

theorem subscriptions_from_length (pub : Nat) (cs : List Call) :
    (subscriptions_from pub cs).length = cs.length := by
  induction cs generalizing pub with
  | nil => rfl
  | cons c cs ih => simp [subscriptions_from, ih]

theorem run_registers (eng : Engine) (cs : List Call) (node : Node) :
    (run eng (cs.map Step.register) node).subscribers_ =
        node.subscribers_ ++ subscriptions_from node.publishers.length cs ∧
      (run eng (cs.map Step.register) node).publishers =
        node.publishers ++ cs.map Call.publisher := by
  induction cs generalizing node with
  | nil => simp [run, subscriptions_from]
  | cons c cs ih =>
    rw [List.map_cons, run_cons]
    obtain ⟨h1, h2⟩ := ih (Step.run eng (Step.register c) node)
    rw [h1, h2]
    simp [Step.run, Call.run_eq, subscriptions_from]

/-! ## Registration (C5, C6, C9) -/

/-- C5. One registration, of any arity, creates exactly one publication and exactly one
subscription: the publication is on `out_topic`, the subscription on `in_topic`, both
with the supplied `qos` and with the message type of the call. A constructor found in a
table under a key makes that call with the message type whose name is the key. -/
theorem one_registration_one_pair :
    (∀ (c : Call) (node : Node),
      (c.run node).publishers = node.publishers ++ [⟨c.type, c.out_topic, c.qos⟩] ∧
      (c.run node).calls = node.calls ++
        [Event.create_publisher node.publishers.length ⟨c.type, c.out_topic, c.qos⟩,
         Event.create_subscription
           ⟨c.type, c.in_topic, c.qos, c.callback node.publishers.length⟩]) ∧
    (∀ (key : String) (ctor : Ctor0), find transform_map_ key = some ctor →
      ∃ T : MessageT, T.name = key ∧ ∀ in_topic out_topic qos node,
        ctor in_topic out_topic qos node = (Call.plain T in_topic out_topic qos).run node) ∧
    (∀ (key : String) (ctor : Ctor1), find transform_stamped_map_ key = some ctor →
      ∃ T : MessageT, T.name = key ∧ ∀ in_topic out_topic frame_id qos node,
        ctor in_topic out_topic frame_id qos node =
          (Call.stamped T in_topic out_topic frame_id qos).run node) ∧
    (∀ (key : String) (ctor : Ctor2), find transform_odometry_map_ key = some ctor →
      ∃ T : MessageT, T.name = key ∧ ∀ in_topic out_topic frame_id child_frame_id qos node,
        ctor in_topic out_topic frame_id child_frame_id qos node =
          (Call.odometry T in_topic out_topic frame_id child_frame_id qos).run node) := by
  refine ⟨?_, ?_, ?_, ?_⟩
  · intro c node
    rw [Call.run_eq]
    exact ⟨rfl, rfl⟩
  · intro key ctor h
    obtain ⟨T, hT, hc⟩ := find_transform_map_ h
    exact ⟨T, hT, fun _ _ _ _ => by rw [hc]; rfl⟩
  · intro key ctor h
    obtain ⟨T, hT, hc⟩ := find_transform_stamped_map_ h
    exact ⟨T, hT, fun _ _ _ _ _ => by rw [hc]; rfl⟩
  · intro key ctor h
    obtain ⟨hk, hc⟩ := find_transform_odometry_map_ h
    exact ⟨MessageT.Odometry, hk.symm, fun _ _ _ _ _ _ => by rw [hc]; rfl⟩

/-- Witness for C5: the constructors found under the Twist, TwistStamped and Odometry
names make the registration call of their table's overload on the type of that name. -/
theorem one_registration_one_pair_witness :
    (find transform_map_ "geometry_msgs/msg/Twist" =
        some (register_transform MessageT.Twist) ∧
      ∃ T : MessageT, T.name = "geometry_msgs/msg/Twist" ∧ ∀ in_topic out_topic qos node,
        register_transform MessageT.Twist in_topic out_topic qos node =
          (Call.plain T in_topic out_topic qos).run node) ∧
    (find transform_stamped_map_ "geometry_msgs/msg/TwistStamped" =
        some (register_transform_stamped MessageT.TwistStamped) ∧
      ∃ T : MessageT, T.name = "geometry_msgs/msg/TwistStamped" ∧
        ∀ in_topic out_topic frame_id qos node,
          register_transform_stamped MessageT.TwistStamped in_topic out_topic frame_id qos
              node =
            (Call.stamped T in_topic out_topic frame_id qos).run node) ∧
    (find transform_odometry_map_ "nav_msgs/msg/Odometry" =
        some (register_transform_odometry MessageT.Odometry) ∧
      ∃ T : MessageT, T.name = "nav_msgs/msg/Odometry" ∧
        ∀ in_topic out_topic frame_id child_frame_id qos node,
          register_transform_odometry MessageT.Odometry in_topic out_topic frame_id
              child_frame_id qos node =
            (Call.odometry T in_topic out_topic frame_id child_frame_id qos).run node) :=
  ⟨⟨rfl, one_registration_one_pair.2.1 "geometry_msgs/msg/Twist"
      (register_transform MessageT.Twist) rfl⟩,
    ⟨rfl, one_registration_one_pair.2.2.1 "geometry_msgs/msg/TwistStamped"
      (register_transform_stamped MessageT.TwistStamped) rfl⟩,
    ⟨rfl, one_registration_one_pair.2.2.2 "nav_msgs/msg/Odometry"
      (register_transform_odometry MessageT.Odometry) rfl⟩⟩

/-- C6. In each overload the `create_publisher` call for `out_topic` comes before the
`create_subscription` call for `in_topic` and happens once per registration; a delivery
creates no publication; and in every trace of registrations and deliveries from a fresh
node each `publish` is on a publication created earlier in the trace, the number of
`create_publisher` calls being the number of registrations (one, for one registration
followed by any deliveries). -/
theorem publication_created_before_subscription (eng : Engine) :
    (∀ (c : Call) (node : Node), ∃ sub : Subscription,
      sub.topic = c.in_topic ∧
      (c.run node).calls = node.calls ++
        [Event.create_publisher node.publishers.length ⟨c.type, c.out_topic, c.qos⟩,
         Event.create_subscription sub]) ∧
    (∀ (i : Nat) (v : Message) (node : Node),
      (deliver eng i v node).publishers = node.publishers ∧
      count_create_publisher (deliver eng i v node).calls =
        count_create_publisher node.calls) ∧
    (∀ steps : List Step,
      PublishAfterCreate (run eng steps Node.empty).calls ∧
      count_create_publisher (run eng steps Node.empty).calls = count_register steps) ∧
    (∀ (c : Call) (deliveries : List (Nat × Message)),
      count_create_publisher
        (run eng (Step.register c :: deliveries.map fun d => Step.deliver d.1 d.2)
          Node.empty).calls = 1) := by
  refine ⟨?_, ?_, ?_, ?_⟩
  · intro c node
    refine ⟨c.subscription node.publishers.length, rfl, ?_⟩
    rw [Call.run_eq]
    rfl
  · intro i v node
    exact ⟨deliver_publishers eng i v node, deliver_count eng i v node⟩
  · intro steps
    refine ⟨(run_sound eng steps Node.empty_sound).2.2, ?_⟩
    rw [run_count]
    simp [Node.empty, count_create_publisher]
  · intro c deliveries
    rw [run_count]
    have h : count_register (deliveries.map fun d => Step.deliver d.1 d.2) = 0 := by
      induction deliveries with
      | nil => rfl
      | cons d ds ih =>
        simp [count_register, List.countP_cons]
    simp [Node.empty, count_create_publisher, count_register, List.countP_cons] at h ⊢

/-- A Pose relay from "in" to "out", then one delivery: the trace is the creation of the
publication, the creation of the subscription and one publish on that publication. -/
theorem pose_relay_trace :
    (run ⟨fun _ m => m, fun _ m _ => m, fun _ m _ _ => m⟩
      [Step.register (Call.plain MessageT.Pose "in" "out" ⟨10, true⟩),
        Step.deliver 0 ⟨"", "", [1, 0, 0]⟩] Node.empty).calls =
      [Event.create_publisher 0 ⟨MessageT.Pose, "out", ⟨10, true⟩⟩,
        Event.create_subscription ⟨MessageT.Pose, "in", ⟨10, true⟩, Callback.plain 0⟩,
        Event.publish 0 ⟨"", "", [1, 0, 0]⟩] := by
  decide

/-- C9. Each `register_transform` call appends exactly one entry to `subscribers_` and
leaves the earlier entries in place; the appended callback holds the publication created
in the same call; after `n` registrations from an empty collection there are `n` entries
in registration order; and a further registration changes neither an earlier entry nor
what its callback publishes. -/
theorem registrations_accumulate (eng : Engine) :
    (∀ (c : Call) (node : Node),
      (c.run node).subscribers_ = node.subscribers_ ++
        [⟨c.type, c.in_topic, c.qos, c.callback node.publishers.length⟩] ∧
      (c.callback node.publishers.length).pub = node.publishers.length ∧
      node.publishers[node.publishers.length]? = none ∧
      (c.run node).publishers[node.publishers.length]? =
        some ⟨c.type, c.out_topic, c.qos⟩ ∧
      (∀ i, i < node.subscribers_.length →
        (c.run node).subscribers_[i]? = node.subscribers_[i]? ∧
        ∀ v, published eng i v (c.run node) = published eng i v node) ∧
      (∀ pub, pub < node.publishers.length →
        (c.run node).publishers[pub]? = node.publishers[pub]?)) ∧
    (∀ cs : List Call,
      (run eng (cs.map Step.register) Node.empty).subscribers_.length = cs.length ∧
      ∀ i, (run eng (cs.map Step.register) Node.empty).subscribers_[i]? =
        (cs[i]?).map (Call.subscription i)) := by
  refine ⟨?_, ?_⟩
  · intro c node
    refine ⟨?_, c.callback_pub _, by simp, ?_, ?_, ?_⟩
    · rw [Call.run_eq]; rfl
    · rw [Call.run_eq]
      exact getElem?_append_cons_length _ _ _
    · intro i hi
      have hs : (c.run node).subscribers_[i]? = node.subscribers_[i]? := by
        rw [Call.run_eq]
        exact List.getElem?_append_left hi
      exact ⟨hs, fun v => published_congr eng i v hs⟩
    · intro pub hpub
      rw [Call.run_eq]
      exact List.getElem?_append_left hpub
  · intro cs
    obtain ⟨h1, _⟩ := run_registers eng cs Node.empty
    rw [h1]
    refine ⟨by simp [Node.empty, subscriptions_from_length], fun i => ?_⟩
    simp [Node.empty, subscriptions_from_getElem?]

/-- Witness for C9: on a node holding one Pose registration, registering a PoseStamped
relay leaves entry 0, what its callback publishes for a message, and publication 0 as
they were. -/
theorem registrations_accumulate_witness :
    0 < (register_transform MessageT.Pose "a" "b" ⟨10, true⟩ Node.empty).subscribers_.length ∧
    0 < (register_transform MessageT.Pose "a" "b" ⟨10, true⟩ Node.empty).publishers.length ∧
    ((Call.stamped MessageT.PoseStamped "c" "d" "map" ⟨5, false⟩).run
        (register_transform MessageT.Pose "a" "b" ⟨10, true⟩ Node.empty)).subscribers_[0]? =
      (register_transform MessageT.Pose "a" "b" ⟨10, true⟩ Node.empty).subscribers_[0]? ∧
    published ⟨fun _ m => m, fun _ m _ => m, fun _ m _ _ => m⟩ 0 ⟨"x", "y", [1, 0, 0]⟩
        ((Call.stamped MessageT.PoseStamped "c" "d" "map" ⟨5, false⟩).run
          (register_transform MessageT.Pose "a" "b" ⟨10, true⟩ Node.empty)) =
      published ⟨fun _ m => m, fun _ m _ => m, fun _ m _ _ => m⟩ 0 ⟨"x", "y", [1, 0, 0]⟩
        (register_transform MessageT.Pose "a" "b" ⟨10, true⟩ Node.empty) ∧
    ((Call.stamped MessageT.PoseStamped "c" "d" "map" ⟨5, false⟩).run
        (register_transform MessageT.Pose "a" "b" ⟨10, true⟩ Node.empty)).publishers[0]? =
      (register_transform MessageT.Pose "a" "b" ⟨10, true⟩ Node.empty).publishers[0]? :=
  ⟨by decide, by decide,
    (((registrations_accumulate ⟨fun _ m => m, fun _ m _ => m, fun _ m _ _ => m⟩).1
      (Call.stamped MessageT.PoseStamped "c" "d" "map" ⟨5, false⟩)
      (register_transform MessageT.Pose "a" "b" ⟨10, true⟩ Node.empty)).2.2.2.2.1 0
        (by decide)).1,
    (((registrations_accumulate ⟨fun _ m => m, fun _ m _ => m, fun _ m _ _ => m⟩).1
      (Call.stamped MessageT.PoseStamped "c" "d" "map" ⟨5, false⟩)
      (register_transform MessageT.Pose "a" "b" ⟨10, true⟩ Node.empty)).2.2.2.2.1 0
        (by decide)).2 ⟨"x", "y", [1, 0, 0]⟩,
    ((registrations_accumulate ⟨fun _ m => m, fun _ m _ => m, fun _ m _ _ => m⟩).1
      (Call.stamped MessageT.PoseStamped "c" "d" "map" ⟨5, false⟩)
      (register_transform MessageT.Pose "a" "b" ⟨10, true⟩ Node.empty)).2.2.2.2.2 0
        (by decide)⟩

/-! ## Relaying (C7, C4, C8) -/

/-- C7. For every registration and every inbound message `v` delivered to its
subscription, at any later time, the callback makes exactly one transport call: a
`publish`, on the publication created for the output topic of that registration, of the
value `transform_message` gives for a copy of `v` (the overload of the registration, with
the identifiers given at registration). The inbound value is unchanged, and the published
value is the same whatever happened on the node in between. -/
theorem callback_publishes_transform (eng : Engine) (c : Call) (node : Node)
    (steps : List Step) (v : Message) :
    (run eng steps (c.run node)).subscribers_[node.subscribers_.length]? =
      some ⟨c.type, c.in_topic, c.qos, c.callback node.publishers.length⟩ ∧
    (run eng steps (c.run node)).publishers[node.publishers.length]? =
      some ⟨c.type, c.out_topic, c.qos⟩ ∧
    deliver eng node.subscribers_.length v (run eng steps (c.run node)) =
      { run eng steps (c.run node) with
        calls := (run eng steps (c.run node)).calls ++
          [Event.publish node.publishers.length (c.transform eng v)] } ∧
    ((c.callback node.publishers.length).call eng c.type v (run eng steps (c.run node))).1 =
      v ∧
    (∀ T in_topic out_topic qos,
      (Call.plain T in_topic out_topic qos).transform eng v = eng.transform_message T v) ∧
    (∀ T in_topic out_topic frame_id qos,
      (Call.stamped T in_topic out_topic frame_id qos).transform eng v =
        eng.transform_message_stamped T v frame_id) ∧
    (∀ T in_topic out_topic frame_id child_frame_id qos,
      (Call.odometry T in_topic out_topic frame_id child_frame_id qos).transform eng v =
        eng.transform_message_odometry T v frame_id child_frame_id) := by
  refine ⟨run_registered_subscription eng c node steps,
    run_registered_publisher eng c node steps, ?_, ?_, fun _ _ _ _ => rfl,
    fun _ _ _ _ _ => rfl, fun _ _ _ _ _ _ => rfl⟩
  · rw [deliver_registered]
    rfl
  · rw [Call.callback_call]

/-- C4. `transform_stamped(value, "base_link")` yields frame identifier "base_link" for
every value of a message type registered in the stamped table, whatever identifier the
value carried; and for every string `f`, a registration made through a constructor of the
stamped table with `frame_id = f` publishes, for every delivered message, a message whose
frame identifier is `f`. -/
theorem stamped_output_carries_frame_id (ft : FrameTransform) :
    (∀ (T : MessageT) (value : Message), T.name ∈ keys transform_stamped_map_ →
      (transform_stamped ft T value "base_link").frame_id = "base_link") ∧
    (∀ (key : String) (ctor : Ctor1), find transform_stamped_map_ key = some ctor →
      ∀ (in_topic out_topic f : String) (qos : QoS) (node : Node) (steps : List Step)
        (v : Message),
        ∃ m : Message,
          deliver (spec_engine ft) node.subscribers_.length v
              (run (spec_engine ft) steps (ctor in_topic out_topic f qos node)) =
            publish node.publishers.length m
              (run (spec_engine ft) steps (ctor in_topic out_topic f qos node)) ∧
          m.frame_id = f) := by
  refine ⟨fun _ _ _ => rfl, ?_⟩
  intro key ctor h in_topic out_topic f qos node steps v
  obtain ⟨T, _, hc⟩ := find_transform_stamped_map_ h
  rw [hc]
  exact ⟨transform_stamped ft T v f,
    deliver_registered (spec_engine ft) (Call.stamped T in_topic out_topic f qos) node steps v,
    rfl⟩

/-- Witness for C4: a PoseStamped value labelled "odom" is relabelled "base_link", and the
subscription registered by the PoseStamped constructor of the stamped table with frame
"base_link" publishes a message labelled "base_link". -/
theorem stamped_output_carries_frame_id_witness :
    (MessageT.PoseStamped.name ∈ keys transform_stamped_map_ ∧
      (transform_stamped ⟨fun _ g => g⟩ MessageT.PoseStamped ⟨"odom", "", [1, 0, 0]⟩
        "base_link").frame_id = "base_link") ∧
    (find transform_stamped_map_ "geometry_msgs/msg/PoseStamped" =
        some (register_transform_stamped MessageT.PoseStamped) ∧
      ∃ m : Message,
        deliver (spec_engine ⟨fun _ g => g⟩) Node.empty.subscribers_.length
            ⟨"odom", "", [1, 0, 0]⟩
            (run (spec_engine ⟨fun _ g => g⟩) []
              (register_transform_stamped MessageT.PoseStamped "in" "out" "base_link"
                ⟨10, true⟩ Node.empty)) =
          publish Node.empty.publishers.length m
            (run (spec_engine ⟨fun _ g => g⟩) []
              (register_transform_stamped MessageT.PoseStamped "in" "out" "base_link"
                ⟨10, true⟩ Node.empty)) ∧
        m.frame_id = "base_link") :=
  ⟨⟨by decide,
      (stamped_output_carries_frame_id ⟨fun _ g => g⟩).1 MessageT.PoseStamped
        ⟨"odom", "", [1, 0, 0]⟩ (by decide)⟩,
    ⟨rfl,
      (stamped_output_carries_frame_id ⟨fun _ g => g⟩).2 "geometry_msgs/msg/PoseStamped"
        (register_transform_stamped MessageT.PoseStamped) rfl "in" "out" "base_link"
        ⟨10, true⟩ Node.empty [] ⟨"odom", "", [1, 0, 0]⟩⟩⟩

/-- C8. A registration made through the constructor stored under "nav_msgs/msg/Odometry"
hands `frame_id` and `child_frame_id` to the Engine in the roles in which they were given:
the stored callback captures them in that order, next to the publication handle and apart
from the topics, its body passes them on in that order, and every relayed message has
frame identifier `frame_id` and child frame identifier `child_frame_id`, whether or not
the two are equal. -/
theorem odometry_identifiers_keep_roles (ft : FrameTransform)
    (in_topic out_topic frame_id child_frame_id : String) (qos : QoS) (node : Node)
    (steps : List Step) (v : Message) :
    ∃ ctor : Ctor2, find transform_odometry_map_ "nav_msgs/msg/Odometry" = some ctor ∧
      (ctor in_topic out_topic frame_id child_frame_id qos node).subscribers_ =
        node.subscribers_ ++
          [⟨MessageT.Odometry, in_topic, qos,
            Callback.odometry node.publishers.length frame_id child_frame_id⟩] ∧
      (ctor in_topic out_topic frame_id child_frame_id qos node).publishers =
        node.publishers ++ [⟨MessageT.Odometry, out_topic, qos⟩] ∧
      (∀ (eng : Engine) (pub : Nat) (n : Node),
        (Callback.odometry pub frame_id child_frame_id).call eng MessageT.Odometry v n =
          (v, publish pub
            (eng.transform_message_odometry MessageT.Odometry v frame_id child_frame_id) n)) ∧
      deliver (spec_engine ft) node.subscribers_.length v
          (run (spec_engine ft) steps
            (ctor in_topic out_topic frame_id child_frame_id qos node)) =
        publish node.publishers.length
          (transform_stamped_with_child ft MessageT.Odometry v frame_id child_frame_id)
          (run (spec_engine ft) steps
            (ctor in_topic out_topic frame_id child_frame_id qos node)) ∧
      (transform_stamped_with_child ft MessageT.Odometry v frame_id child_frame_id).frame_id =
        frame_id ∧
      (transform_stamped_with_child ft MessageT.Odometry v frame_id
        child_frame_id).child_frame_id = child_frame_id := by
  refine ⟨register_transform_odometry MessageT.Odometry, rfl, rfl, rfl,
    fun _ _ _ => rfl, ?_, rfl, rfl⟩
  exact deliver_registered (spec_engine ft)
    (Call.odometry MessageT.Odometry in_topic out_topic frame_id child_frame_id qos) node
    steps v

/-! ## The Dispatcher (C2, C3) -/

theorem find_shape_none_of_not_mem {name : String}
    (h0 : name ∉ keys transform_map_) (h1 : name ∉ keys transform_stamped_map_)
    (h2 : name ∉ keys transform_odometry_map_) : find_shape lookup_order name = none := by
  apply List.find?_eq_none.2
  intro s _
  rw [has_key_iff]
  cases s
  · exact h0
  · exact h1
  · exact h2

theorem register_unknown {spec : TransformSpec}
    (h0 : spec.message_type ∉ keys transform_map_)
    (h1 : spec.message_type ∉ keys transform_stamped_map_)
    (h2 : spec.message_type ∉ keys transform_odometry_map_) (node : Node) :
    register spec node = (.error (.UnknownMessageType spec.message_type), node) := by
  unfold register
  rw [find_shape_none_of_not_mem h0 h1 h2]

theorem register_all_append (xs ys : List TransformSpec) (node : Node) :
    register_all (xs ++ ys) node =
      ((register_all xs node).1 ++ (register_all ys (register_all xs node).2).1,
        (register_all ys (register_all xs node).2).2) := by
  induction xs generalizing node with
  | nil => simp [register_all]
  | cons x xs ih => simp [register_all, ih]

theorem register_all_length (xs : List TransformSpec) (node : Node) :
    (register_all xs node).1.length = xs.length := by
  induction xs generalizing node with
  | nil => simp [register_all]
  | cons x xs ih => simp [register_all, ih]

/-- Specs the Dispatcher accepts: a Pose spec, a TwistStamped spec with a frame_id and an
Odometry spec with both identifiers are registered through the constructor of their
table. -/
theorem register_accepts :
    register ⟨"geometry_msgs/msg/Pose", "a", "b", none, none, ⟨10, true⟩⟩ Node.empty =
      (.ok (), register_transform MessageT.Pose "a" "b" ⟨10, true⟩ Node.empty) ∧
    register ⟨"geometry_msgs/msg/TwistStamped", "c", "d", some "map", none, ⟨5, false⟩⟩
        Node.empty =
      (.ok (),
        register_transform_stamped MessageT.TwistStamped "c" "d" "map" ⟨5, false⟩
          Node.empty) ∧
    register ⟨"nav_msgs/msg/Odometry", "e", "f", some "map", some "base_link", ⟨5, false⟩⟩
        Node.empty =
      (.ok (),
        register_transform_odometry MessageT.Odometry "e" "f" "map" "base_link" ⟨5, false⟩
          Node.empty) := by
  refine ⟨?_, ?_, ?_⟩ <;> rfl

/-- C2. A spec whose message type is not, by exact string equality, a key of any of the
three tables is rejected with `UnknownMessageType` of that type name and changes nothing on
the node; in a batch, the node reached and the results of all the other specs are what
they are for the batch without the rejected spec. -/
theorem unknown_type_rejected (spec : TransformSpec)
    (h0 : spec.message_type ∉ keys transform_map_)
    (h1 : spec.message_type ∉ keys transform_stamped_map_)
    (h2 : spec.message_type ∉ keys transform_odometry_map_) :
    (∀ node : Node,
      register spec node = (.error (.UnknownMessageType spec.message_type), node)) ∧
    ∀ (before after : List TransformSpec) (node : Node),
      (register_all (before ++ spec :: after) node).2 =
        (register_all (before ++ after) node).2 ∧
      (register_all (before ++ spec :: after) node).1[before.length]? =
        some (.error (.UnknownMessageType spec.message_type)) ∧
      (register_all (before ++ spec :: after) node).1.eraseIdx before.length =
        (register_all (before ++ after) node).1 := by
  refine ⟨register_unknown h0 h1 h2, ?_⟩
  intro before after node
  have hlen := register_all_length before node
  rw [register_all_append, register_all_append]
  simp only [register_all, register_unknown h0 h1 h2]
  refine ⟨trivial, ?_, ?_⟩
  · rw [← hlen]
    exact getElem?_append_cons_length _ _ _
  · rw [← hlen, List.eraseIdx_append_of_length_le (Nat.le_refl _)]
    simp

/-- Witness for C2: "foo/Bar" is in no table, and neither is a registered name in another
letter case; a batch of a Pose spec, the "foo/Bar" spec and a TwistStamped spec reaches
the node of the batch of the Pose spec and the TwistStamped spec. -/
theorem unknown_type_rejected_witness :
    (register ⟨"foo/Bar", "in", "out", none, none, ⟨10, true⟩⟩ Node.empty =
      (.error (.UnknownMessageType "foo/Bar"), Node.empty)) ∧
    (register ⟨"geometry_msgs/msg/pose", "in", "out", none, none, ⟨10, true⟩⟩ Node.empty =
      (.error (.UnknownMessageType "geometry_msgs/msg/pose"), Node.empty)) ∧
    (register_all
        ([⟨"geometry_msgs/msg/Pose", "a", "b", none, none, ⟨10, true⟩⟩] ++
          ⟨"foo/Bar", "in", "out", none, none, ⟨10, true⟩⟩ ::
            [⟨"geometry_msgs/msg/TwistStamped", "c", "d", some "map", none, ⟨5, false⟩⟩])
        Node.empty).2 =
      (register_all
        ([⟨"geometry_msgs/msg/Pose", "a", "b", none, none, ⟨10, true⟩⟩] ++
          [⟨"geometry_msgs/msg/TwistStamped", "c", "d", some "map", none, ⟨5, false⟩⟩])
        Node.empty).2 :=
  ⟨(unknown_type_rejected ⟨"foo/Bar", "in", "out", none, none, ⟨10, true⟩⟩
      (by decide) (by decide) (by decide)).1 Node.empty,
    (unknown_type_rejected ⟨"geometry_msgs/msg/pose", "in", "out", none, none, ⟨10, true⟩⟩
      (by decide) (by decide) (by decide)).1 Node.empty,
    ((unknown_type_rejected ⟨"foo/Bar", "in", "out", none, none, ⟨10, true⟩⟩
      (by decide) (by decide) (by decide)).2
      [⟨"geometry_msgs/msg/Pose", "a", "b", none, none, ⟨10, true⟩⟩]
      [⟨"geometry_msgs/msg/TwistStamped", "c", "d", some "map", none, ⟨5, false⟩⟩]
      Node.empty).1⟩

/-- C3. A spec of a type of the odometry table ("nav_msgs/msg/Odometry") that supplies no
`child_frame_id` is rejected with `MissingFrameMetadata`; the node is unchanged: no
publication is created, `subscribers_` is as before and no transport call is made. -/
theorem odometry_without_child_rejected (spec : TransformSpec) (node : Node)
    (ht : spec.message_type ∈ keys transform_odometry_map_)
    (hc : spec.child_frame_id = none) :
    register spec node = (.error .MissingFrameMetadata, node) ∧
    (register spec node).2.subscribers_ = node.subscribers_ ∧
    (register spec node).2.publishers = node.publishers ∧
    (register spec node).2.calls = node.calls := by
  have hk : spec.message_type = "nav_msgs/msg/Odometry" := by
    simpa [keys, transform_odometry_map_] using ht
  have hs : find_shape lookup_order "nav_msgs/msg/Odometry" =
      some Shape.StampedWithFrameAndChild := by decide
  have hr : register spec node = (.error .MissingFrameMetadata, node) := by
    unfold register
    rw [hk, hs, hc]
    cases spec.frame_id <;> rfl
  rw [hr]
  exact ⟨rfl, rfl, rfl, rfl⟩

/-- Witness for C3: an Odometry spec with a frame_id but no child_frame_id. -/
theorem odometry_without_child_rejected_witness :
    register ⟨"nav_msgs/msg/Odometry", "in", "out", some "map", none, ⟨10, true⟩⟩ Node.empty =
      (.error .MissingFrameMetadata, Node.empty) :=
  (odometry_without_child_rejected
    ⟨"nav_msgs/msg/Odometry", "in", "out", some "map", none, ⟨10, true⟩⟩ Node.empty
    (by decide) rfl).1

end m2m
